import Mathlib

/-!
Verification of the per-track transcription session pipeline of the
User-Weave repository (src/agents/transcription_agent.py), as a shallow
embedding in Lean 4.

Modelling conventions:
- Python `str.strip()` truthiness tests (`if text.strip():`) become
  `pyStrip text ≠ ""` on Lean strings, with `pyStrip` a structurally
  recursive embedding of `str.strip()`.
- `datetime.now().isoformat()` is nondeterministic; each operation takes
  the current timestamp as an explicit `now : String` argument.
- Confidence scores are Python floats that are only ever passed through,
  never computed with; they are modelled as `Option ℚ` (the `none` case
  models `hasattr(alt, 'confidence')` being false, which the code maps
  to `None`).
- The `processing_tracks` Python set becomes a `Finset String`.
- The transcript file system becomes a function `String → FileState`
  from file names to file states; `FileState.unparsable` models a file
  whose contents raise `json.JSONDecodeError`.
- Publishes to the Distribution Sink and appends to the Transcript
  Store are recorded as an ordered `List Action` trace.
-/

namespace UserWeave

/-- Speech event kinds delivered by the speech engine
(livekit SpeechEventType as used at lines 125, 137, 151). -/
inductive SpeechEventType where
  | interimTranscript
  | finalTranscript
  | endOfSpeech
deriving DecidableEq, Repr

/-- One ranked alternative of a speech event: its text and an optional
confidence score (`none` when the engine supplies no such attribute). -/
structure Alternative where
  text : String
  confidence : Option ℚ
deriving DecidableEq, Repr

/-- A speech event from the engine stream: a kind and a list of ranked
alternatives. -/
structure SpeechEvent where
  type : SpeechEventType
  alternatives : List Alternative
deriving DecidableEq, Repr

/-- Outbound transcription message, mirroring the dict built in
`send_transcription` (lines 180-187). -/
structure TranscriptMessage where
  text : String
  isFinal : Bool
  participant : String
  timestamp : String
  confidence : Option ℚ
deriving DecidableEq, Repr

/-- Durable transcript record, mirroring the `entry` dict built in
`save_transcript` (lines 212-217). -/
structure TranscriptRecord where
  timestamp : String
  participant : String
  text : String
  room : String
deriving DecidableEq, Repr

/-- Observable output of a Track Session: a publish to the Distribution
Sink or an append to the Transcript Store. -/
inductive Action where
  | publish (m : TranscriptMessage)
  | append (r : TranscriptRecord)
deriving DecidableEq, Repr

/-- Flat JSON values, enough to model `json.dumps` of the message dict. -/
inductive JVal where
  | str (s : String)
  | bool (b : Bool)
  | num (q : ℚ)
  | null
deriving DecidableEq, Repr

/-- Characters removed by Python `str.strip()` with no argument: space,
tab, newline, carriage return, vertical tab and form feed. -/
def isPyWhitespace (c : Char) : Bool :=
  c = ' ' || c = '\t' || c = '\n' || c = '\r' || c = '\x0b' || c = '\x0c'

/-- Embedding of Python `str.strip()`: drop leading and trailing
whitespace characters. -/
def pyStrip (s : String) : String :=
  ⟨(((s.data.dropWhile isPyWhitespace).reverse.dropWhile isPyWhitespace).reverse)⟩

/-- Serialization of a `TranscriptMessage` as the ordered key-value pairs
of the dict at lines 180-187.  The `confidence` key is always written;
a `None` confidence serializes as JSON `null`. -/
def serialize_message (m : TranscriptMessage) : List (String × JVal) :=
  [("type", JVal.str "transcription"),
   ("text", JVal.str m.text),
   ("isFinal", JVal.bool m.isFinal),
   ("participant", JVal.str m.participant),
   ("timestamp", JVal.str m.timestamp),
   ("confidence", match m.confidence with
                  | some c => JVal.num c
                  | none => JVal.null)]

/-- Embedding of `send_transcription` (lines 175-198): returns the
message published, or `none` when the early return on blank text fires
and nothing is published. -/
def send_transcription (text : String) (is_final : Bool) (participant : String)
    (now : String) (confidence : Option ℚ) : Option TranscriptMessage :=
  if pyStrip text = "" then none
  else some ⟨text, is_final, participant, now, confidence⟩

/-- State of one transcript file: absent, present but not valid JSON, or
a parsed list of records. -/
inductive FileState where
  | absent
  | unparsable
  | parsed (records : List TranscriptRecord)
deriving DecidableEq, Repr

/-- The records recovered from an existing file when `save_transcript`
reads it (lines 219-227): a parsed list is kept, an absent file and a
file raising `json.JSONDecodeError` both yield the empty list. -/
def priorRecords : FileState → List TranscriptRecord
  | FileState.absent => []
  | FileState.unparsable => []
  | FileState.parsed rs => rs

/-- File name chosen by `save_transcript` (line 210): room name and
current date. -/
def transcriptFileKey (room date : String) : String :=
  room ++ "_" ++ date ++ ".json"

/-- The record `save_transcript` builds and appends, or `none` when the
early return on blank text fires (lines 200-217). -/
def save_transcript_record (text participant room now : String) :
    Option TranscriptRecord :=
  if pyStrip text = "" then none
  else some ⟨now, participant, text, room⟩

/-- Embedding of `save_transcript` (lines 200-235) acting on the file
system: guard on blank text, read the existing records of the target
file (empty list when absent or unparsable), append the new entry and
write the full list back. -/
def save_transcript (fs : String → FileState) (room date now text participant : String) :
    String → FileState :=
  match save_transcript_record text participant room now with
  | none => fs
  | some entry =>
    let filename := transcriptFileKey room date
    let transcripts :=
      match fs filename with
      | FileState.absent => []
      | FileState.unparsable => []
      | FileState.parsed ts => ts
    fun k => if k = filename then FileState.parsed (transcripts ++ [entry]) else fs k

/-- Embedding of one iteration of the event loop in `process_stt_events`
(lines 124-152): interim events publish a non-final message when the
first alternative has non-blank text; final events publish a final
message and then append a record under the same guard; end-of-speech
only logs.  The first alternative is read only inside the non-empty
match arm, mirroring the `if event.alternatives and len(...) > 0` guard
at lines 127 and 139. -/
def process_stt_event (room participant now : String) (e : SpeechEvent) : List Action :=
  if e.type = SpeechEventType.interimTranscript then
    match e.alternatives with
    | [] => []
    | alt :: _ =>
      if pyStrip alt.text ≠ "" then
        match send_transcription alt.text false participant now alt.confidence with
        | some m => [Action.publish m]
        | none => []
      else []
  else if e.type = SpeechEventType.finalTranscript then
    match e.alternatives with
    | [] => []
    | alt :: _ =>
      if pyStrip alt.text ≠ "" then
        (match send_transcription alt.text true participant now alt.confidence with
         | some m => [Action.publish m]
         | none => []) ++
        (match save_transcript_record alt.text participant room now with
         | some r => [Action.append r]
         | none => [])
      else []
  else []

/-- The event-draining flow (`process_stt_events`, lines 122-152) over a
finite list of engine events, producing the ordered action trace. -/
def process_stt_events (room participant now : String) : List SpeechEvent → List Action
  | [] => []
  | e :: rest =>
    process_stt_event room participant now e ++ process_stt_events room participant now rest

/-- Track id built at line 104: participant sid and track sid joined by
an underscore. -/
def track_id (participant_sid track_sid : String) : String :=
  participant_sid ++ "_" ++ track_sid

/-- Outcome of the try-block of `process_audio_track` (lines 114-167):
either both flows completed normally after draining the given events,
or an exception aborted them after the given events had been fully
processed; the except clause at line 169 catches and logs it. -/
inductive FlowOutcome where
  | completed (events : List SpeechEvent)
  | raised (events : List SpeechEvent)
deriving DecidableEq, Repr

/-- Result of one `process_audio_track` invocation: the registry after
the call, the ordered trace of publishes and appends it performed, and
whether a pipeline was actually started. -/
structure SessionResult where
  registry : Finset String
  actions : List Action
  started : Bool
deriving DecidableEq

/-- Embedding of `process_audio_track` (lines 102-173): compute the
track id; if it is already in `processing_tracks` return at once doing
nothing; otherwise add it, run the two flows (whose drained events
yield the action trace, exceptions being caught at line 169), and in
the finally clause at line 171 discard the id unconditionally. -/
def process_audio_track (reg : Finset String)
    (participant_sid track_sid participant_identity room now : String)
    (outcome : FlowOutcome) : SessionResult :=
  let tid := track_id participant_sid track_sid
  if tid ∈ reg then ⟨reg, [], false⟩
  else
    let acts :=
      match outcome with
      | FlowOutcome.completed evs => process_stt_events room participant_identity now evs
      | FlowOutcome.raised evs => process_stt_events room participant_identity now evs
    ⟨(insert tid reg).erase tid, acts, true⟩

/-- Embedding of the `send_status_updates` loop (lines 75-86) over a
finite schedule of ticks.  Each tick is the registry size read at that
tick together with whether the `publish_data` call succeeds; the loop
body has no exception handler, so a failing publish terminates the task
and no later tick runs.  The result is the list of sizes actually sent. -/
def send_status_updates : List (ℕ × Bool) → List ℕ
  | [] => []
  | (size, ok) :: rest =>
    if ok then size :: send_status_updates rest
    else []

/-- Interval constant of the heartbeat loop (line 77). -/
def status_update_interval : ℕ := 30

/-- Serial execution of the appends of N concurrent Track Sessions to
the same room file.  `save_transcript` (lines 200-235) is a synchronous
method with no await and hence no suspension point between its read of
the file (lines 220-227) and its write (lines 232-233); all Track
Sessions run as coroutines of the one asyncio event loop, and
coroutines interleave only at await points, so each append executes
atomically and N concurrent appends execute in some serial order.  A
schedule is that serial order, one `(now, text, participant)` triple
per session. -/
def run_appends (fs : String → FileState) (room date : String) :
    List (String × String × String) → (String → FileState)
  | [] => fs
  | (now, text, participant) :: rest =>
    run_appends (save_transcript fs room date now text participant) room date rest

end UserWeave

namespace UserWeave

/-- C1: for every invocation of `process_audio_track` that actually
starts a session (the track id is not already held), the finally clause
releases the id from the registry whatever the outcome of the two data
flows, normal completion or exception: after the invocation the
registry no longer contains the id, and is in fact exactly the registry
it started from. -/
theorem process_audio_track_releases_id (reg : Finset String)
    (participant_sid track_sid participant_identity room now : String)
    (outcome : FlowOutcome)
    (h : track_id participant_sid track_sid ∉ reg) :
    track_id participant_sid track_sid ∉
      (process_audio_track reg participant_sid track_sid participant_identity
        room now outcome).registry ∧
    (process_audio_track reg participant_sid track_sid participant_identity
        room now outcome).registry = reg := by
  unfold process_audio_track
  simp only [if_neg h]
  exact ⟨Finset.not_mem_erase _ _, Finset.erase_insert h⟩

theorem process_audio_track_releases_id_witness :
    track_id "p1" "t1" ∉
      (process_audio_track ∅ "p1" "t1" "alice" "room1" "ts0"
        (FlowOutcome.raised [⟨SpeechEventType.finalTranscript, [⟨"hello", none⟩]⟩])).registry ∧
    (process_audio_track ∅ "p1" "t1" "alice" "room1" "ts0"
        (FlowOutcome.raised [⟨SpeechEventType.finalTranscript, [⟨"hello", none⟩]⟩])).registry = ∅ :=
  process_audio_track_releases_id ∅ "p1" "t1" "alice" "room1" "ts0"
    (FlowOutcome.raised [⟨SpeechEventType.finalTranscript, [⟨"hello", none⟩]⟩])
    (Finset.not_mem_empty _)

/-- C2: a second `process_audio_track` invocation for a track id already
held in the registry is a no-op: the early return at lines 107-109
starts no pipeline, publishes nothing, appends nothing, and leaves the
registry unchanged. -/
theorem process_audio_track_duplicate_noop (reg : Finset String)
    (participant_sid track_sid participant_identity room now : String)
    (outcome : FlowOutcome)
    (h : track_id participant_sid track_sid ∈ reg) :
    process_audio_track reg participant_sid track_sid participant_identity
      room now outcome = ⟨reg, [], false⟩ := by
  unfold process_audio_track
  simp only [if_pos h]

theorem process_audio_track_duplicate_noop_witness :
    process_audio_track {"p1_t1"} "p1" "t1" "alice" "room1" "ts0"
      (FlowOutcome.completed [⟨SpeechEventType.finalTranscript, [⟨"hello", none⟩]⟩]) =
      ⟨{"p1_t1"}, [], false⟩ :=
  process_audio_track_duplicate_noop {"p1_t1"} "p1" "t1" "alice" "room1" "ts0"
    (FlowOutcome.completed [⟨SpeechEventType.finalTranscript, [⟨"hello", none⟩]⟩])
    (Finset.mem_singleton_self _)

/-- C3: a `FinalTranscript` event whose first alternative has non-blank
text yields exactly two actions, in order: first the publish of exactly
one message with `isFinal = true`, then the append of exactly one
record. -/
theorem final_transcript_send_then_append (room participant now : String)
    (alt : Alternative) (rest : List Alternative)
    (h : pyStrip alt.text ≠ "") :
    process_stt_event room participant now
        ⟨SpeechEventType.finalTranscript, alt :: rest⟩ =
      [Action.publish ⟨alt.text, true, participant, now, alt.confidence⟩,
       Action.append ⟨now, participant, alt.text, room⟩] := by
  simp [process_stt_event, send_transcription, save_transcript_record, h]

theorem final_transcript_send_then_append_witness :
    pyStrip "hello world" ≠ "" ∧
    process_stt_event "room1" "alice" "ts0"
        ⟨SpeechEventType.finalTranscript, [⟨"hello world", none⟩]⟩ =
      [Action.publish ⟨"hello world", true, "alice", "ts0", none⟩,
       Action.append ⟨"ts0", "alice", "hello world", "room1"⟩] :=
  ⟨by decide,
   final_transcript_send_then_append "room1" "alice" "ts0" ⟨"hello world", none⟩ []
     (by decide)⟩

/-- C4: an event (of any kind) whose first alternative trims to the
empty string produces no action at all; moreover `send_transcription`
publishes nothing for such text (its guard at lines 177-178) and
`save_transcript` leaves the file system unchanged (its guard at lines
202-203). -/
theorem blank_text_dropped (room date participant now : String)
    (ty : SpeechEventType) (alt : Alternative) (rest : List Alternative)
    (fs : String → FileState)
    (h : pyStrip alt.text = "") :
    process_stt_event room participant now ⟨ty, alt :: rest⟩ = [] ∧
    send_transcription alt.text false participant now alt.confidence = none ∧
    send_transcription alt.text true participant now alt.confidence = none ∧
    save_transcript fs room date now alt.text participant = fs := by
  refine ⟨?_, ?_, ?_, ?_⟩
  · cases ty <;> simp [process_stt_event, h]
  · simp [send_transcription, h]
  · simp [send_transcription, h]
  · simp [save_transcript, save_transcript_record, h]

theorem blank_text_dropped_witness :
    pyStrip "  " = "" ∧
    (process_stt_event "room1" "alice" "ts0"
        ⟨SpeechEventType.finalTranscript, [⟨"  ", none⟩]⟩ = [] ∧
     send_transcription "  " false "alice" "ts0" none = none ∧
     send_transcription "  " true "alice" "ts0" none = none ∧
     save_transcript (fun _ => FileState.absent) "room1" "2026-10-12" "ts0" "  " "alice" =
       (fun _ => FileState.absent)) :=
  ⟨by decide,
   blank_text_dropped "room1" "2026-10-12" "alice" "ts0"
     SpeechEventType.finalTranscript ⟨"  ", none⟩ [] (fun _ => FileState.absent)
     (by decide)⟩

/-- C5: appending a record with non-blank text updates the file keyed by
room and date to exactly the previously stored records followed by the
new record; an absent or unparsable prior file contributes the empty
list, so the resulting file then holds only the new record, and the
append does not fail. -/
theorem save_transcript_append_semantics (fs : String → FileState)
    (room date now text participant : String)
    (h : pyStrip text ≠ "") :
    save_transcript fs room date now text participant (transcriptFileKey room date) =
      FileState.parsed
        (priorRecords (fs (transcriptFileKey room date)) ++
          [⟨now, participant, text, room⟩]) := by
  unfold save_transcript save_transcript_record
  simp only [if_neg h]
  cases hfs : fs (transcriptFileKey room date) <;>
    simp [priorRecords, hfs]

theorem save_transcript_append_semantics_witness :
    pyStrip "hello" ≠ "" ∧
    save_transcript (fun _ => FileState.unparsable) "room1" "2026-10-12" "ts0" "hello" "alice"
        (transcriptFileKey "room1" "2026-10-12") =
      FileState.parsed [⟨"ts0", "alice", "hello", "room1"⟩] :=
  ⟨by decide,
   save_transcript_append_semantics (fun _ => FileState.unparsable)
     "room1" "2026-10-12" "ts0" "hello" "alice" (by decide)⟩

/-- C9: an event with an empty alternatives list produces no publish and
no append, whatever its kind; in the embedding the first alternative is
only ever read in the cons arm of the match, mirroring the emptiness
guard the code performs before indexing `event.alternatives[0]`. -/
theorem empty_alternatives_no_output (room participant now : String)
    (ty : SpeechEventType) :
    process_stt_event room participant now ⟨ty, []⟩ = [] := by
  cases ty <;> rfl

/-- C10: the action trace of an event depends only on its kind and on
its first alternative: any two events sharing kind and head alternative
produce identical output, so the remaining ranked alternatives have no
effect. -/
theorem only_first_alternative_matters (room participant now : String)
    (ty : SpeechEventType) (alt : Alternative) (rest1 rest2 : List Alternative) :
    process_stt_event room participant now ⟨ty, alt :: rest1⟩ =
      process_stt_event room participant now ⟨ty, alt :: rest2⟩ := by
  cases ty <;> rfl

/-- C6 counterexample: the loop body of `send_status_updates` has no
exception handler, so on a schedule whose first tick fails to send and
whose second tick would have succeeded, nothing is sent at all: the
second tick does not fire, refuting the claim that a failed send does
not stop subsequent ticks. -/
theorem send_status_updates_failure_kills_loop :
    send_status_updates [(2, false), (3, true)] = [] ∧
    3 ∉ send_status_updates [(2, false), (3, true)] := by
  constructor
  · rfl
  · decide

/-- C6 amended: the heartbeat loop sends one status message per tick,
carrying the registry size read at that tick, exactly for the longest
prefix of ticks whose sends succeed; the first failing send escapes the
loop (there is no handler) and terminates the task, so no later tick
fires. -/
theorem send_status_updates_successful_prefix (ticks : List (ℕ × Bool)) :
    send_status_updates ticks = (ticks.takeWhile Prod.snd).map Prod.fst := by
  induction ticks with
  | nil => rfl
  | cons t rest ih =>
    obtain ⟨size, ok⟩ := t
    cases ok <;> simp [send_status_updates, List.takeWhile_cons, ih]

/-- C7 counterexample: a final event whose first alternative carries no
confidence is published with `confidence = none`, and the serialized
message still contains the `confidence` key, with JSON value `null`:
the field is present, not absent, in the published message. -/
theorem confidence_field_present_when_absent :
    process_stt_events "room1" "alice" "ts0"
        [⟨SpeechEventType.finalTranscript, [⟨"hello", none⟩]⟩] =
      [Action.publish ⟨"hello", true, "alice", "ts0", none⟩,
       Action.append ⟨"ts0", "alice", "hello", "room1"⟩] ∧
    (serialize_message ⟨"hello", true, "alice", "ts0", none⟩).lookup "confidence" =
      some JVal.null := by
  constructor
  · rfl
  · rfl

/-- C7 amended: every message actually published by `send_transcription`
carries the confidence value supplied for the first alternative
unmodified, and its serialization always contains the `confidence` key:
with the numeric value when the engine supplied one and with JSON
`null` (the key present, its value null) when it supplied none. -/
theorem confidence_passthrough (text participant now : String) (is_final : Bool)
    (conf : Option ℚ) (m : TranscriptMessage)
    (h : send_transcription text is_final participant now conf = some m) :
    m.confidence = conf ∧
    (serialize_message m).lookup "confidence" =
      some (match conf with
            | some c => JVal.num c
            | none => JVal.null) := by
  unfold send_transcription at h
  by_cases hc : pyStrip text = ""
  · simp [hc] at h
  · simp only [if_neg hc, Option.some.injEq] at h
    subst h
    cases conf <;> exact ⟨rfl, rfl⟩

theorem confidence_passthrough_witness :
    send_transcription "hi" true "alice" "ts0" (some 1) =
      some ⟨"hi", true, "alice", "ts0", some 1⟩ ∧
    ((⟨"hi", true, "alice", "ts0", some 1⟩ : TranscriptMessage).confidence = some 1 ∧
     (serialize_message ⟨"hi", true, "alice", "ts0", some 1⟩).lookup "confidence" =
       some (JVal.num 1)) :=
  ⟨rfl, confidence_passthrough "hi" "alice" "ts0" true (some 1)
    ⟨"hi", true, "alice", "ts0", some 1⟩ rfl⟩

/-- C8: N concurrent sessions each appending one record with non-blank
text to the same room file lose no update: `save_transcript` contains
no suspension point, so the appends execute atomically in some serial
order, and the final file holds exactly the prior records followed by
all N appended entries in that order; from a fresh file the record
count is exactly N. -/
theorem concurrent_appends_serialize (fs : String → FileState)
    (room date : String) (appends : List (String × String × String))
    (h : ∀ a ∈ appends, pyStrip a.2.1 ≠ "") :
    priorRecords (run_appends fs room date appends (transcriptFileKey room date)) =
      priorRecords (fs (transcriptFileKey room date)) ++
        appends.map (fun a => (⟨a.1, a.2.2, a.2.1, room⟩ : TranscriptRecord)) ∧
    (priorRecords (run_appends fs room date appends (transcriptFileKey room date))).length =
      (priorRecords (fs (transcriptFileKey room date))).length + appends.length := by
  suffices hrec : priorRecords (run_appends fs room date appends (transcriptFileKey room date)) =
      priorRecords (fs (transcriptFileKey room date)) ++
        appends.map (fun a => (⟨a.1, a.2.2, a.2.1, room⟩ : TranscriptRecord)) by
    refine ⟨hrec, ?_⟩
    simp [hrec]
  induction appends generalizing fs with
  | nil => simp [run_appends]
  | cons a rest ih =>
    obtain ⟨now, text, participant⟩ := a
    have htext : pyStrip text ≠ "" := h ⟨now, text, participant⟩ (List.mem_cons_self _ _)
    have hkey : save_transcript fs room date now text participant
        (transcriptFileKey room date) =
        FileState.parsed (priorRecords (fs (transcriptFileKey room date)) ++
          [⟨now, participant, text, room⟩]) := by
      unfold save_transcript save_transcript_record
      simp only [if_neg htext]
      cases hfs : fs (transcriptFileKey room date) <;> simp [priorRecords, hfs]
    have hrest := ih (save_transcript fs room date now text participant)
      (fun b hb => h b (List.mem_cons_of_mem _ hb))
    rw [run_appends, hrest, hkey]
    simp [priorRecords]

theorem concurrent_appends_serialize_witness :
    priorRecords (run_appends (fun _ => FileState.absent) "room1" "2026-10-12"
        [("ts1", "hello", "alice"), ("ts2", "world", "bob")]
        (transcriptFileKey "room1" "2026-10-12")) =
      [⟨"ts1", "alice", "hello", "room1"⟩, ⟨"ts2", "bob", "world", "room1"⟩] ∧
    (priorRecords (run_appends (fun _ => FileState.absent) "room1" "2026-10-12"
        [("ts1", "hello", "alice"), ("ts2", "world", "bob")]
        (transcriptFileKey "room1" "2026-10-12"))).length = 2 :=
  concurrent_appends_serialize (fun _ => FileState.absent) "room1" "2026-10-12"
    [("ts1", "hello", "alice"), ("ts2", "world", "bob")] (by decide)

end UserWeave

